import Mathlib

/-!
Shallow embedding of the tinygo build-cache and library builder
(`builder/buildcache.go`, `builder/library.go`).

Modelling conventions:
* `time.Time` is modelled as `Int`; the Go zero time `time.Time{}` is `0`,
  `t.Before u` is `t < u`, `t.After u` is `u < t`, `t.IsZero` is `t = 0`.
  Real file modification times are strictly after the zero time, which shows
  up as a positivity hypothesis `0 < t` where a proof needs it.
* The filesystem is a function from paths to a stat outcome (`Stat`).
  `os.RemoveAll` and `os.Rename` are modelled as pointwise updates of that
  function at the paths involved (only exact paths are ever stat'ed here).
* `filepath.Join`, `filepath.Base` and `filepath.Dir` are modelled for
  clean slash-separated paths without trailing slashes, which is the shape
  of every path the embedded code builds.
* Environment variables `GOCACHE` and `TINYGOROOT` (read through
  `goenv.Get`) are fields of `Env`; `os.TempDir()` is the constant `/tmp`.
-/

set_option autoImplicit false

namespace TinyGoBuilder

/-- Outcome of `os.Stat` on one path: a modification time, a
"does not exist" error (`os.IsNotExist`), or any other I/O error. -/
inductive Stat where
  | ok (mtime : Int)
  | notExist
  | err
deriving DecidableEq, Repr

/-- Ambient state: the filesystem plus the `GOCACHE` and `TINYGOROOT`
environment variables read through `goenv.Get`. -/
structure Env where
  fs : String → Stat
  gocache : String
  tinygoroot : String

/-- Prefix test on character lists, used to model `strings.HasPrefix`. -/
def startsAux : List Char → List Char → Bool
  | _, [] => true
  | [], _ :: _ => false
  | c :: cs, p :: ps => c = p && startsAux cs ps

/-- Model of Go `strings.HasPrefix s pre`. -/
def strStarts (s pre : String) : Bool :=
  startsAux s.data pre.data

/-- Split a character list on `/`, keeping empty components
(the behaviour of splitting a path string on the separator). -/
def splitSlashAux : List Char → List Char → List String
  | [], acc => [String.mk acc.reverse]
  | c :: rest, acc =>
    if c = '/' then String.mk acc.reverse :: splitSlashAux rest []
    else splitSlashAux rest (c :: acc)

/-- Components of a slash-separated path. -/
def pathComponents (p : String) : List String :=
  splitSlashAux p.data []

/-- Join path components with `/`. -/
def joinSlash : List String → String
  | [] => ""
  | [s] => s
  | s :: rest => s ++ "/" ++ joinSlash rest

/-- Model of Go `filepath.Join a b` for clean paths: empty elements are
dropped, otherwise the parts are joined with a single separator. -/
def pathJoin (a b : String) : String :=
  if a = "" then b else if b = "" then a else a ++ "/" ++ b

/-- Model of Go `filepath.Base` for clean paths without trailing slashes:
the last slash-separated component (`"."` for the empty path). -/
def filepathBase (p : String) : String :=
  match (pathComponents p).getLast? with
  | none => "."
  | some "" => if p = "" then "." else "/"
  | some s => s

/-- Model of Go `filepath.Dir` for clean paths without trailing slashes:
everything before the last component, `"."` when there is none. -/
def filepathDir (p : String) : String :=
  match (pathComponents p).dropLast with
  | [] => "."
  | comps =>
    let joined := joinSlash comps
    if joined = "" then (if strStarts p "/" then "/" else ".") else joined

/-- Model of `os.RemoveAll`: the path no longer exists afterwards. -/
def removeAll (env : Env) (path : String) : Env :=
  { env with fs := fun p => if p = path then .notExist else env.fs p }

/-- Model of `os.Rename src dst`: `dst` now carries `src`'s modification
time `m`, and `src` no longer exists. -/
def renameFile (env : Env) (src dst : String) (m : Int) : Env :=
  { env with fs := fun p =>
      if p = dst then .ok m else if p = src then .notExist else env.fs p }

/-- Loop body of `cacheTimestamp` (buildcache.go lines 13-27): fold the
running newest timestamp over the paths, starting from the zero time;
any stat failure aborts with an error. -/
def cacheTimestampGo (fs : String → Stat) (timestamp : Int) :
    List String → Except Unit Int
  | [] => .ok timestamp
  | path :: rest =>
    match fs path with
    | .ok m =>
      cacheTimestampGo fs
        (if timestamp = 0 then m else if timestamp < m then m else timestamp)
        rest
    | _ => .error ()

/-- Model of `cacheTimestamp` (buildcache.go lines 13-27): the newest
timestamp of all the file paths passed in, or an error if any stat fails. -/
def cacheTimestamp (fs : String → Stat) (paths : List String) : Except Unit Int :=
  cacheTimestampGo fs 0 paths

/-- Result of `cacheLoad`: a hit with the absolute cache path, a miss
(`"", nil` in Go, covering both "no entry" and "stale entry evicted"),
or an I/O error (`"", err` in Go). -/
inductive LoadResult where
  | hit (path : String)
  | miss
  | fsError
deriving DecidableEq, Repr

/-- Model of `cacheLoad` (buildcache.go lines 32-53). Returns the result
together with the filesystem state afterwards (a stale entry is removed
with `os.RemoveAll` before the miss is reported). -/
def cacheLoad (env : Env) (name : String) (sourceFiles : List String) :
    LoadResult × Env :=
  let cachepath := pathJoin env.gocache name
  match env.fs cachepath with
  | .notExist => (.miss, env)
  | .err => (.fsError, env)
  | .ok cacheMtime =>
    match cacheTimestamp env.fs sourceFiles with
    | .error _ => (.fsError, env)
    | .ok sourceTimestamp =>
      if sourceTimestamp < cacheMtime then (.hit cachepath, env)
      else (.miss, removeAll env cachepath)

/-- Result of `cacheStore`: the Go panic on an empty source set, an I/O
error, or success with the final cache path. -/
inductive StoreResult where
  | panicked
  | fsError
  | ok (path : String)
deriving DecidableEq, Repr

/-- Model of `cacheStore` (buildcache.go lines 58-77): panics when
`sourceFiles` is empty, otherwise renames `tmppath` into the cache under
`name` (`os.MkdirAll` on the cache root cannot fail in this model; the
rename fails when `tmppath` does not exist). -/
def cacheStore (env : Env) (tmppath name : String) (sourceFiles : List String) :
    StoreResult × Env :=
  if sourceFiles.length = 0 then (.panicked, env)
  else
    let cachepath := pathJoin env.gocache name
    match env.fs tmppath with
    | .ok m => (.ok cachepath, renameFile env tmppath cachepath m)
    | _ => (.fsError, env)

/-- Stat every path, collecting the modification times; `none` if any
stat fails. Spec-side helper used to state the staleness claims. -/
def sourceMtimes (fs : String → Stat) : List String → Option (List Int)
  | [] => some []
  | p :: rest =>
    match fs p, sourceMtimes fs rest with
    | .ok t, some ts => some (t :: ts)
    | _, _ => none

/-- Newest of a list of modification times (zero time for an empty list).
Spec-side definition of "the newest modification time among the source
files". -/
def newestOf (ts : List Int) : Int :=
  ts.foldl max 0

/-- Symbolic description of what a job's `run` closure does when executed.
The closures in library.go perform external I/O (compiler, archiver,
header generation); the model records their arguments as data. -/
inductive JobAction where
  | passThrough
  | headers (target includeDir : String)
  | compile (args : List String) (objpath srcpath : String)
  | archive (archivePath : String) (objs : List String)
      (tmppath name : String) (sourceFiles : List String)
deriving Repr

/-- Model of `compileJob`: description, result path, dependency list and
the (symbolic) action. -/
inductive CompileJob where
  | mk (description : String) (result : String)
      (dependencies : List CompileJob) (action : JobAction)

def CompileJob.description : CompileJob → String
  | .mk d _ _ _ => d

def CompileJob.result : CompileJob → String
  | .mk _ r _ _ => r

def CompileJob.dependencies : CompileJob → List CompileJob
  | .mk _ _ deps _ => deps

def CompileJob.action : CompileJob → JobAction
  | .mk _ _ _ a => a

/-- Modelled from the spec: `dummyCompileJob` (defined outside src/) is a
pass-through node carrying only a result path, with no dependencies and
no action. -/
def dummyCompileJob (result : String) : CompileJob :=
  .mk "" result [] .passThrough

/-- Errors `Library.load` / `Library.Load` can surface: a failed
`ioutil.TempDir`, a failed `os.Mkdir`, or a failed job action reported by
the scheduler. -/
inductive BuildError where
  | tempDirFailed
  | mkdirFailed
  | jobFailed (msg : String)
deriving DecidableEq, Repr

/-- Modelled from the spec: pass-through nodes (no action) are instantly
successful; the outcome of a real action comes from the external executor
`exec`. -/
def execAction (exec : JobAction → Option BuildError) :
    JobAction → Option BuildError
  | .passThrough => none
  | a => exec a

mutual

/-- Modelled from the spec: the scheduler `runJobs` (defined outside src/)
runs every dependency before a node's own action and propagates the first
error. Concurrency is irrelevant to the claims settled here; the model
runs the graph sequentially in dependency order. -/
def runJob (exec : JobAction → Option BuildError) : CompileJob → Option BuildError
  | .mk _ _ deps act =>
    match runJobList exec deps with
    | some e => some e
    | none => execAction exec act

/-- Run a list of jobs in order, propagating the first error. -/
def runJobList (exec : JobAction → Option BuildError) :
    List CompileJob → Option BuildError
  | [] => none
  | j :: rest =>
    match runJob exec j with
    | some e => some e
    | none => runJobList exec rest

end

/-- Configuration surface consumed from `*compileopts.Config`: the target
triple, the CPU string, and the precompiled-library lookup
`LibcPath(name) -> (path, found)` (all defined outside src/ and therefore
opaque parameters of the model). -/
structure Config where
  triple : String
  cpu : String
  libcPath : String → String × Bool

/-- Model of `Library` (library.go lines 16-34). `makeHeaders` is a `func`
that may be nil in Go; the model keeps a flag recording whether it is set
(its body is external I/O, recorded symbolically by `JobAction.headers`). -/
structure Library where
  name : String
  makeHeaders : Bool
  cflags : String → String → List String
  sourceDir : String
  librarySources : String → List String
  crt1Source : String

/-- Model of `Library.fullPath` (library.go lines 37-39). -/
def Library.fullPath (l : Library) (tinygoroot : String) : String :=
  pathJoin tinygoroot l.sourceDir

/-- Model of `Library.sourcePaths` (library.go lines 43-53): full paths of
the crt1 source (first, when set) and the library sources. -/
def Library.sourcePaths (l : Library) (tinygoroot target : String) : List String :=
  let sources := l.librarySources target
  let sources := if l.crt1Source = "" then sources else l.crt1Source :: sources
  sources.map (fun name => pathJoin (l.fullPath tinygoroot) name)

/-- Model of `os.TempDir()`. -/
def osTempDir : String := "/tmp"

/-- Fixed compiler flags appended to `l.cflags(...)` (library.go line 109). -/
def fixedCompileFlags (target dir remapDir : String) : List String :=
  ["-c", "-Oz", "-g", "-ffunction-sections", "-fdata-sections",
   "-Wno-macro-redefined", "--target=" ++ target,
   "-fdebug-prefix-map=" ++ dir ++ "=" ++ remapDir]

/-- Target-conditional flag synthesis (library.go lines 110-122): the CPU
flag when the CPU string is non-empty, then the ABI/ISA flag sets keyed by
target-triple prefix. -/
def synthFlags (args0 : List String) (target cpu : String) : List String :=
  let args := args0
  let args := if cpu = "" then args else args ++ ["-mcpu=" ++ cpu]
  let args :=
    if strStarts target "arm" || strStarts target "thumb" then
      args ++ ["-fshort-enums", "-fomit-frame-pointer", "-mfloat-abi=soft"]
    else args
  let args :=
    if strStarts target "riscv32-" then
      args ++ ["-march=rv32imac", "-mabi=ilp32", "-fforce-enable-int128"]
    else args
  if strStarts target "riscv64-" then
    args ++ ["-march=rv64gc", "-mabi=lp64"]
  else args

/-- Job graph built by `Library.load` on a cache miss (library.go lines
98-203): one compile job per library source, an optional crt1 compile job,
an optional header-generation job each compile job depends on, and the
archive job at the root whose action archives the library objects and then
stores the temporary output directory in the cache. -/
def Library.missJob (l : Library) (config : Config) (env : Env)
    (tmpdir outtmpdir : String) : CompileJob :=
  let target := config.triple
  let outname := filepathBase (config.libcPath l.name).1
  let remapDir := pathJoin osTempDir ("tinygo-" ++ l.name)
  let dir := pathJoin tmpdir ("build-lib-" ++ l.name)
  let args := synthFlags
    (l.cflags target outtmpdir ++ fixedCompileFlags target dir remapDir)
    target config.cpu
  let objs := (l.librarySources target).map (fun path =>
    pathJoin dir (filepathBase (pathJoin l.sourceDir path) ++ ".o"))
  let compileDependencies : List CompileJob :=
    if l.makeHeaders then
      [.mk ("headers " ++ l.name ++ "/include") "" []
        (.headers target (pathJoin outtmpdir "include"))]
    else []
  let srcJobs := (l.librarySources target).map (fun path =>
    CompileJob.mk ("compile " ++ pathJoin l.sourceDir path) ""
      compileDependencies
      (.compile args
        (pathJoin dir (filepathBase (pathJoin l.sourceDir path) ++ ".o"))
        (pathJoin l.sourceDir path)))
  let crt1Jobs : List CompileJob :=
    if l.crt1Source = "" then []
    else
      [.mk ("compile " ++ pathJoin l.sourceDir l.crt1Source) ""
        compileDependencies
        (.compile args (pathJoin outtmpdir "crt1.o")
          (pathJoin l.sourceDir l.crt1Source))]
  .mk ("ar " ++ l.name ++ "/lib.a")
    (pathJoin (pathJoin env.gocache outname) "lib.a")
    (srcJobs ++ crt1Jobs)
    (.archive (pathJoin outtmpdir "lib.a") objs outtmpdir outname
      (l.sourcePaths env.tinygoroot target))

/-- Model of `Library.load` (library.go lines 73-204). Nondeterministic
external outcomes are parameters: `tempDirResult` is the directory created
by `ioutil.TempDir` (`none` on failure) and `mkdirOk` says whether
`os.Mkdir` on the build dir succeeds. Note the faithful translation of
line 84: when `cacheLoad` reports an error, the `path != "" || err != nil`
branch is taken and a dummy job is returned with a nil error. -/
def Library.load (l : Library) (config : Config) (env : Env) (tmpdir : String)
    (tempDirResult : Option String) (mkdirOk : Bool) :
    Except BuildError (CompileJob × Env) :=
  let res := config.libcPath l.name
  if res.2 then
    .ok (dummyCompileJob res.1, env)
  else
    let outname := filepathBase res.1
    match cacheLoad env outname (l.sourcePaths env.tinygoroot config.triple) with
    | (.hit path, env1) => .ok (dummyCompileJob (pathJoin path "lib.a"), env1)
    | (.fsError, env1) => .ok (dummyCompileJob (pathJoin "" "lib.a"), env1)
    | (.miss, env1) =>
      match tempDirResult with
      | none => .error .tempDirFailed
      | some outtmpdir =>
        if mkdirOk then .ok (l.missJob config env tmpdir outtmpdir, env1)
        else .error .mkdirFailed

/-- Model of `Library.Load` (library.go lines 58-65): build the job graph,
hand it to the scheduler, and return the directory of the root job's
result together with the scheduler's error. -/
def Library.Load (l : Library) (config : Config) (env : Env) (tmpdir : String)
    (tempDirResult : Option String) (mkdirOk : Bool)
    (exec : JobAction → Option BuildError) : String × Option BuildError :=
  match l.load config env tmpdir tempDirResult mkdirOk with
  | .error e => ("", some e)
  | .ok (job, _) => (filepathDir job.result, runJob exec job)

/-- Whether an action is the archive action. -/
def isArchive : JobAction → Bool
  | .archive _ _ _ _ _ => true
  | _ => false

/-- Object path an action compiles to (empty for non-compile actions). -/
def actionObjPath : JobAction → String
  | .compile _ o _ => o
  | _ => ""

/-- Objects an archive action hands to the archiver. -/
def objsOfAction : JobAction → List String
  | .archive _ objs _ _ _ => objs
  | _ => []

/-- Executor for which every external action succeeds; used to evaluate
`Library.Load` on concrete inputs. -/
def execNone : JobAction → Option BuildError := fun _ => none

/-- Concrete environment: a cache entry at `c/xlib` with timestamp 10 and
one source file `s1` with timestamp 5. -/
def envC1 : Env :=
  ⟨fun p => if p = "c/xlib" then .ok 10
    else if p = "s1" then .ok 5 else .notExist, "c", "r"⟩

/-- Concrete library with one source and no crt1, used to exhibit the
cache-error behaviour of `Library.load`. -/
def lC2 : Library := ⟨"mylib", false, fun _ _ => [], "lib/m", fun _ => ["m.c"], ""⟩

/-- Concrete configuration without a precompiled override. -/
def cfgC2 : Config := ⟨"x86_64-unknown-linux", "", fun _ => ("c/mylib", false)⟩

/-- Concrete environment where stating the cache entry `c/mylib` fails
with an I/O error (not "does not exist"). -/
def envC2 : Env :=
  ⟨fun p => if p = "c/mylib" then .err
    else if p = "r/lib/m/m.c" then .ok 5 else .notExist, "c", "r"⟩

/-- Concrete library used with a precompiled override. -/
def lC3 : Library := ⟨"picolibc", false, fun _ _ => [], "lib/picolibc", fun _ => [], ""⟩

/-- Concrete configuration whose `LibcPath` reports the precompiled
override `/pkg/arm/picolibc`. -/
def cfgC3 : Config :=
  ⟨"armv6m-unknown-unknown-eabi", "", fun _ => ("/pkg/arm/picolibc", true)⟩

/-- Concrete environment (never consulted on the precompiled path). -/
def envC3 : Env := ⟨fun _ => .notExist, "c", "r"⟩

/-- Concrete library with one source file and a crt1 startup source. -/
def lC4 : Library := ⟨"x4", false, fun _ _ => [], "lib/x4", fun _ => ["a.c"], "crt1.c"⟩

/-- Concrete configuration without a precompiled override for `x4`. -/
def cfgC4 : Config := ⟨"armv6m-unknown-unknown-eabi", "", fun _ => ("c/x4lib", false)⟩

/-- Concrete environment with no cache entry for `x4lib` (a cache miss). -/
def envC4 : Env :=
  ⟨fun p => if p = "r/lib/x4/a.c" then .ok 3
    else if p = "r/lib/x4/crt1.c" then .ok 2 else .notExist, "c", "r"⟩

/-- Result of building the `x4` job graph on a cache miss. -/
def loadResC4 : Except BuildError (CompileJob × Env) :=
  Library.load lC4 cfgC4 envC4 "tmp" (some "ot") true

/-- Root (archive) job of the `x4` build. -/
def jobC4 : CompileJob :=
  match loadResC4 with
  | .ok (j, _) => j
  | .error _ => dummyCompileJob ""

/-- Environment after building the `x4` job graph. -/
def envC4b : Env :=
  match loadResC4 with
  | .ok (_, e) => e
  | .error _ => envC4

/-- Concrete library with two sources, a crt1 source and header
generation enabled. -/
def lC6 : Library :=
  ⟨"xl6", true, fun _ _ => ["-n6"], "lib/x6", fun _ => ["a.c", "b.c"], "crt1.c"⟩

/-- Concrete configuration without a precompiled override for `xl6`. -/
def cfgC6 : Config :=
  ⟨"thumbv6m-unknown-unknown-eabi", "cortex-m0", fun _ => ("c/x6lib", false)⟩

/-- Concrete environment with no cache entry for `x6lib` (a cache miss). -/
def envC6 : Env :=
  ⟨fun p => if p = "r/lib/x6/a.c" then .ok 3
    else if p = "r/lib/x6/b.c" then .ok 4
    else if p = "r/lib/x6/crt1.c" then .ok 2 else .notExist, "c", "r"⟩

/-- Result of building the `xl6` job graph on a cache miss. -/
def loadResC6 : Except BuildError (CompileJob × Env) :=
  Library.load lC6 cfgC6 envC6 "tmp6" (some "ot6") true

/-- Root (archive) job of the `xl6` build. -/
def jobC6 : CompileJob :=
  match loadResC6 with
  | .ok (j, _) => j
  | .error _ => dummyCompileJob ""

/-- Environment after building the `xl6` job graph. -/
def envC6b : Env :=
  match loadResC6 with
  | .ok (_, e) => e
  | .error _ => envC6

/-- Concrete environment: a freshly built artifact at `c/nlib.tmp1` with
timestamp 10 and one source file `s7` with timestamp 4. -/
def envC7 : Env :=
  ⟨fun p => if p = "c/nlib.tmp1" then .ok 10
    else if p = "s7" then .ok 4 else .notExist, "c", "r"⟩

/-- Concrete environment with an artifact at `t8` ready to be stored. -/
def envC8 : Env := ⟨fun p => if p = "t8" then .ok 7 else .notExist, "c", "r"⟩

/-- Concrete environment with no cache entry at all. -/
def envC9 : Env := ⟨fun _ => .notExist, "c", "r"⟩

/-- Concrete environment with a cache entry at `c/old` of timestamp 9. -/
def envC10 : Env := ⟨fun p => if p = "c/old" then .ok 9 else .notExist, "c", "r"⟩

/-- When every source stats successfully with a positive (after the Go
zero time) modification time, the `cacheTimestamp` loop computes the
maximum of the accumulator and all modification times. -/
theorem cacheTimestampGo_ok (fs : String → Stat) (paths : List String) :
    ∀ (ts : List Int) (acc : Int), 0 ≤ acc →
      sourceMtimes fs paths = some ts →
      (∀ t ∈ ts, 0 < t) →
      cacheTimestampGo fs acc paths = .ok (ts.foldl max acc) := by
  induction paths with
  | nil =>
    intro ts acc _ hts _
    simp [sourceMtimes] at hts
    subst hts
    simp [cacheTimestampGo]
  | cons p rest ih =>
    intro ts acc hacc hts hpos
    simp only [sourceMtimes] at hts
    cases hfp : fs p with
    | ok m =>
      cases hrest : sourceMtimes fs rest with
      | none => rw [hfp, hrest] at hts; simp at hts
      | some ts' =>
        rw [hfp, hrest] at hts
        simp at hts
        subst hts
        have hm : 0 < m := hpos m (by simp)
        have hpos' : ∀ t ∈ ts', 0 < t := fun t ht => hpos t (by simp [ht])
        simp only [cacheTimestampGo, hfp]
        have hstep : (if acc = 0 then m else if acc < m then m else acc) = max acc m := by
          rcases eq_or_ne acc 0 with rfl | h0
          · simpa using (max_eq_right hm.le).symm
          · rw [if_neg h0]
            rcases lt_or_le acc m with hlt | hle
            · rw [if_pos hlt, max_eq_right hlt.le]
            · rw [if_neg (not_lt.mpr hle), max_eq_left hle]
        rw [hstep, ih ts' (max acc m) (le_trans hacc (le_max_left _ _)) hrest hpos']
        rfl
    | notExist => rw [hfp] at hts; simp at hts
    | err => rw [hfp] at hts; simp at hts

/-- When every source stats successfully with a modification time below
`m` and the accumulator is below `m`, the `cacheTimestamp` loop succeeds
with a value below `m`. -/
theorem cacheTimestampGo_lt (fs : String → Stat) (m : Int) (paths : List String) :
    ∀ (ts : List Int) (acc : Int), acc < m →
      sourceMtimes fs paths = some ts →
      (∀ t ∈ ts, t < m) →
      ∃ r, cacheTimestampGo fs acc paths = .ok r ∧ r < m := by
  induction paths with
  | nil =>
    intro ts acc hacc _ _
    exact ⟨acc, rfl, hacc⟩
  | cons p rest ih =>
    intro ts acc hacc hts hlt
    simp only [sourceMtimes] at hts
    cases hfp : fs p with
    | ok mt =>
      cases hrest : sourceMtimes fs rest with
      | none => rw [hfp, hrest] at hts; simp at hts
      | some ts' =>
        rw [hfp, hrest] at hts
        simp at hts
        subst hts
        have hmt : mt < m := hlt mt (by simp)
        have hlt' : ∀ t ∈ ts', t < m := fun t ht => hlt t (by simp [ht])
        simp only [cacheTimestampGo, hfp]
        have : (if acc = 0 then mt else if acc < mt then mt else acc) < m := by
          split_ifs <;> assumption
        exact ih ts' _ this hrest hlt'
    | notExist => rw [hfp] at hts; simp at hts
    | err => rw [hfp] at hts; simp at hts

/-- Stat results are unchanged under a filesystem update that leaves
every listed path alone. -/
theorem sourceMtimes_congr (fs fs' : String → Stat) (paths : List String)
    (h : ∀ p ∈ paths, fs' p = fs p) :
    sourceMtimes fs' paths = sourceMtimes fs paths := by
  induction paths with
  | nil => rfl
  | cons p rest ih =>
    simp only [sourceMtimes]
    rw [h p (by simp), ih (fun q hq => h q (by simp [hq]))]

/-- On a cache miss with a working temporary directory, `Library.load`
returns the archive-rooted job graph `Library.missJob` together with the
post-`cacheLoad` environment. -/
theorem load_miss_eq (l : Library) (config : Config) (env : Env)
    (tmpdir outtmpdir : String)
    (hpre : (config.libcPath l.name).2 = false)
    (hcl : (cacheLoad env (filepathBase (config.libcPath l.name).1)
      (l.sourcePaths env.tinygoroot config.triple)).1 = .miss) :
    Library.load l config env tmpdir (some outtmpdir) true =
      .ok (l.missJob config env tmpdir outtmpdir,
        (cacheLoad env (filepathBase (config.libcPath l.name).1)
          (l.sourcePaths env.tinygoroot config.triple)).2) := by
  rcases hcl2 : cacheLoad env (filepathBase (config.libcPath l.name).1)
      (l.sourcePaths env.tinygoroot config.triple) with ⟨r, env1⟩
  rw [hcl2] at hcl
  simp at hcl
  subst hcl
  simp only [Library.load, hpre, Bool.false_eq_true, if_false, hcl2]
  simp

/-- Claim C1: for a cache entry and a source set whose files all stat
successfully (with realistic, after-zero-time timestamps), `cacheLoad`
reports a hit exactly when the entry's modification time is strictly
newer than the newest source modification time; when the newest source
time is greater than or equal to the entry's time, it deletes the entry
(`os.RemoveAll`) and reports a miss (empty path, no error). -/
theorem cacheLoad_staleness_invariant
    (env : Env) (name : String) (srcs : List String) (ts : List Int) (cm : Int)
    (hne : srcs ≠ [])
    (hts : sourceMtimes env.fs srcs = some ts)
    (hpos : ∀ t ∈ ts, 0 < t)
    (hcache : env.fs (pathJoin env.gocache name) = .ok cm) :
    (newestOf ts < cm →
      cacheLoad env name srcs = (.hit (pathJoin env.gocache name), env)) ∧
    (cm ≤ newestOf ts →
      cacheLoad env name srcs =
        (.miss, removeAll env (pathJoin env.gocache name)) ∧
      (cacheLoad env name srcs).2.fs (pathJoin env.gocache name) = .notExist) := by
  have hct : cacheTimestamp env.fs srcs = .ok (newestOf ts) :=
    cacheTimestampGo_ok env.fs srcs ts 0 le_rfl hts hpos
  constructor
  · intro h
    simp [cacheLoad, hcache, cacheTimestamp] at hct ⊢
    rw [hct]
    simp [h]
  · intro h
    have hnot : ¬ newestOf ts < cm := not_lt.mpr h
    simp [cacheLoad, hcache, cacheTimestamp] at hct ⊢
    rw [hct]
    simp [hnot, removeAll]

/-- Witness for C1: timestamps 5 (source) against 10 (entry) give a hit. -/
theorem cacheLoad_staleness_invariant_witness :
    cacheLoad envC1 "xlib" ["s1"] = (.hit "c/xlib", envC1) :=
  (cacheLoad_staleness_invariant envC1 "xlib" ["s1"] [5] 10 (by decide) (by decide)
    (by decide) (by decide)).1 (by decide)

/-- Claim C2 (code bug): when `cacheLoad` fails with an I/O error,
library.go line 84 takes the `path != "" || err != nil` branch and
returns a dummy "cache hit" job with result `lib.a` and a nil error
instead of propagating the error; `Library.Load` then proceeds and
returns `"."` with no error. The spec requires the stat error to abort
the build. -/
theorem load_swallows_cacheLoad_error :
    (cacheLoad envC2 "mylib" (lC2.sourcePaths "r" cfgC2.triple)).1 = .fsError ∧
    Library.load lC2 cfgC2 envC2 "tmp" (some "c/mylib.tmp1") true =
      .ok (dummyCompileJob "lib.a", envC2) ∧
    Library.Load lC2 cfgC2 envC2 "tmp" (some "c/mylib.tmp1") true execNone =
      (".", none) := ⟨rfl, rfl, rfl⟩

/-- Counterexample to C3 as stated: with the override `/pkg/arm/picolibc`,
`Library.Load` returns `filepath.Dir` of the override, `/pkg/arm`, which
differs from the override path itself. -/
theorem Load_returns_dir_of_override :
    Library.Load lC3 cfgC3 envC3 "tmp" none true execNone = ("/pkg/arm", none) ∧
    ("/pkg/arm" : String) ≠ "/pkg/arm/picolibc" := ⟨rfl, by decide⟩

/-- Claim C3 (amended): with a precompiled override, the internal
`Library.load` returns a pass-through job carrying exactly the override
path, with no dependencies and no action (zero compile jobs), and
`Library.Load` returns `filepath.Dir` of the override path with no
error. -/
theorem load_precompiled_passthrough (l : Library) (config : Config) (env : Env)
    (tmpdir : String) (td : Option String) (mkOk : Bool)
    (exec : JobAction → Option BuildError)
    (h : (config.libcPath l.name).2 = true) :
    Library.load l config env tmpdir td mkOk =
      .ok (dummyCompileJob (config.libcPath l.name).1, env) ∧
    (dummyCompileJob (config.libcPath l.name).1).dependencies = [] ∧
    (dummyCompileJob (config.libcPath l.name).1).action = .passThrough ∧
    Library.Load l config env tmpdir td mkOk exec =
      (filepathDir (config.libcPath l.name).1, none) := by
  have hload : Library.load l config env tmpdir td mkOk =
      .ok (dummyCompileJob (config.libcPath l.name).1, env) := by
    simp [Library.load, h]
  refine ⟨hload, rfl, rfl, ?_⟩
  simp [Library.Load, hload, dummyCompileJob, runJob, runJobList, execAction,
    CompileJob.result]

/-- Witness for C3 (amended) at the concrete override configuration. -/
theorem load_precompiled_passthrough_witness :
    Library.load lC3 cfgC3 envC3 "tmp" none true =
      .ok (dummyCompileJob "/pkg/arm/picolibc", envC3) ∧
    (dummyCompileJob "/pkg/arm/picolibc").dependencies = [] ∧
    (dummyCompileJob "/pkg/arm/picolibc").action = .passThrough ∧
    Library.Load lC3 cfgC3 envC3 "tmp" none true execNone = ("/pkg/arm", none) :=
  load_precompiled_passthrough lC3 cfgC3 envC3 "tmp" none true execNone rfl

/-- Counterexample to C4 as stated: with a startup source set, one
dependency of the archive job compiles `crt1.o`, but its object path is
not among the objects handed to the archiver. -/
theorem archive_action_omits_startup_object :
    (jobC4.dependencies.map (fun d => actionObjPath d.action)).contains
      "ot/crt1.o" = true ∧
    (objsOfAction jobC4.action).contains "ot/crt1.o" = false := by decide

/-- Claim C4 (amended): on a cache miss, the archive job's action invokes
the archiver on the object paths of the library-source compile jobs only,
producing `lib.a` in the temporary output directory, and then calls the
cache store with that temporary directory; the startup object, when set,
is compiled (into the temporary output directory) by the last dependency
of the archive job but is not passed to the archiver. -/
theorem load_archive_action (l : Library) (config : Config) (env env1 : Env)
    (tmpdir outtmpdir : String) (job : CompileJob)
    (hpre : (config.libcPath l.name).2 = false)
    (hcl : (cacheLoad env (filepathBase (config.libcPath l.name).1)
      (l.sourcePaths env.tinygoroot config.triple)).1 = .miss)
    (hload : Library.load l config env tmpdir (some outtmpdir) true = .ok (job, env1)) :
    job.action = .archive (pathJoin outtmpdir "lib.a")
      ((l.librarySources config.triple).map (fun p =>
        pathJoin (pathJoin tmpdir ("build-lib-" ++ l.name))
          (filepathBase (pathJoin l.sourceDir p) ++ ".o")))
      outtmpdir (filepathBase (config.libcPath l.name).1)
      (l.sourcePaths env.tinygoroot config.triple) ∧
    (l.crt1Source ≠ "" →
      (job.dependencies.getLast?).map CompileJob.action =
        some (.compile
          (synthFlags (l.cflags config.triple outtmpdir ++
            fixedCompileFlags config.triple (pathJoin tmpdir ("build-lib-" ++ l.name))
            (pathJoin osTempDir ("tinygo-" ++ l.name))) config.triple config.cpu)
          (pathJoin outtmpdir "crt1.o") (pathJoin l.sourceDir l.crt1Source))) := by
  have heq := (load_miss_eq l config env tmpdir outtmpdir hpre hcl).symm.trans hload
  obtain ⟨hj, -⟩ : l.missJob config env tmpdir outtmpdir = job ∧
      (cacheLoad env (filepathBase (config.libcPath l.name).1)
        (l.sourcePaths env.tinygoroot config.triple)).2 = env1 := by
    simpa [Prod.ext_iff] using heq
  subst hj
  constructor
  · rfl
  · intro hc
    simp only [Library.missJob, CompileJob.dependencies, if_neg hc]
    rw [List.getLast?_concat]
    rfl

/-- Witness for C4 (amended) on the concrete `x4` build. -/
theorem load_archive_action_witness :
    jobC4.action = .archive "ot/lib.a" ["tmp/build-lib-x4/a.c.o"] "ot" "x4lib"
      ["r/lib/x4/crt1.c", "r/lib/x4/a.c"] ∧
    (jobC4.dependencies.getLast?).map CompileJob.action =
      some (.compile
        (synthFlags (fixedCompileFlags "armv6m-unknown-unknown-eabi"
          "tmp/build-lib-x4" "/tmp/tinygo-x4") "armv6m-unknown-unknown-eabi" "")
        "ot/crt1.o" "lib/x4/crt1.c") := by
  obtain ⟨h1, h2⟩ := load_archive_action lC4 cfgC4 envC4 envC4b "tmp" "ot" jobC4
    rfl (by decide) rfl
  exact ⟨h1, h2 (by decide)⟩

/-- Claim C5: the synthesized flag list is the base flags, plus `-mcpu`
exactly when the CPU string is non-empty, plus each ABI/ISA flag set
exactly when the target triple has the matching prefix; when nothing
matches, the flag list is the base list alone (no error is possible). -/
theorem synthFlags_by_target (base : List String) (target cpu : String) :
    synthFlags base target cpu =
      base
      ++ (if cpu = "" then [] else ["-mcpu=" ++ cpu])
      ++ (if strStarts target "arm" || strStarts target "thumb" then
            ["-fshort-enums", "-fomit-frame-pointer", "-mfloat-abi=soft"] else [])
      ++ (if strStarts target "riscv32-" then
            ["-march=rv32imac", "-mabi=ilp32", "-fforce-enable-int128"] else [])
      ++ (if strStarts target "riscv64-" then
            ["-march=rv64gc", "-mabi=lp64"] else []) ∧
    (cpu = "" → strStarts target "arm" = false → strStarts target "thumb" = false →
     strStarts target "riscv32-" = false → strStarts target "riscv64-" = false →
     synthFlags base target cpu = base) := by
  constructor
  · simp only [synthFlags]
    by_cases h1 : cpu = "" <;>
      by_cases h2 : (strStarts target "arm" || strStarts target "thumb") = true <;>
        by_cases h3 : strStarts target "riscv32-" = true <;>
          by_cases h4 : strStarts target "riscv64-" = true <;>
            simp [h1, h2, h3, h4, List.append_assoc]
  · intro hc h1 h2 h3 h4
    simp [synthFlags, hc, h1, h2, h3, h4]

/-- Witness for C5: a triple matching no ABI rule and an empty CPU string
compiles with the base flag set only. -/
theorem synthFlags_by_target_witness :
    synthFlags ["-nostdlib"] "x86_64-unknown-linux" "" = ["-nostdlib"] :=
  (synthFlags_by_target ["-nostdlib"] "x86_64-unknown-linux" "").2 rfl
    (by decide) (by decide) (by decide) (by decide)

/-- Claim C6: on a cache miss the graph has exactly one compile job per
library source plus one more when the crt1 startup source is set; every
compile job depends on the header-generation job exactly when
`makeHeaders` is set; and the single root is the archive job depending on
all of them. -/
theorem load_graph_shape (l : Library) (config : Config) (env env1 : Env)
    (tmpdir outtmpdir : String) (job : CompileJob)
    (hpre : (config.libcPath l.name).2 = false)
    (hcl : (cacheLoad env (filepathBase (config.libcPath l.name).1)
      (l.sourcePaths env.tinygoroot config.triple)).1 = .miss)
    (hload : Library.load l config env tmpdir (some outtmpdir) true = .ok (job, env1)) :
    job.dependencies.length =
      (l.librarySources config.triple).length +
        (if l.crt1Source = "" then 0 else 1) ∧
    (∀ d ∈ job.dependencies, ∃ a o s, d.action = .compile a o s) ∧
    (∀ d ∈ job.dependencies, d.dependencies =
      (if l.makeHeaders then
        [CompileJob.mk ("headers " ++ l.name ++ "/include") "" []
          (.headers config.triple (pathJoin outtmpdir "include"))]
       else [])) ∧
    isArchive job.action = true := by
  have heq := (load_miss_eq l config env tmpdir outtmpdir hpre hcl).symm.trans hload
  obtain ⟨hj, -⟩ : l.missJob config env tmpdir outtmpdir = job ∧
      (cacheLoad env (filepathBase (config.libcPath l.name).1)
        (l.sourcePaths env.tinygoroot config.triple)).2 = env1 := by
    simpa [Prod.ext_iff] using heq
  subst hj
  refine ⟨?_, ?_, ?_, rfl⟩
  · simp only [Library.missJob, CompileJob.dependencies, List.length_append,
      List.length_map]
    by_cases hc : l.crt1Source = "" <;> simp [hc]
  · intro d hd
    simp only [Library.missJob, CompileJob.dependencies, List.mem_append,
      List.mem_map] at hd
    rcases hd with ⟨p, hp, rfl⟩ | hd
    · exact ⟨_, _, _, rfl⟩
    · by_cases hc : l.crt1Source = ""
      · simp [hc] at hd
      · simp [hc] at hd
        subst hd
        exact ⟨_, _, _, rfl⟩
  · intro d hd
    simp only [Library.missJob, CompileJob.dependencies, List.mem_append,
      List.mem_map] at hd
    rcases hd with ⟨p, hp, rfl⟩ | hd
    · rfl
    · by_cases hc : l.crt1Source = ""
      · simp [hc] at hd
      · simp [hc] at hd
        subst hd
        rfl

/-- Witness for C6 on the concrete `xl6` build: 2 sources + crt1 give 3
compile jobs, each depending on the header job, under an archive root. -/
theorem load_graph_shape_witness :
    jobC6.dependencies.length = 3 ∧
    (jobC6.dependencies.head?).map CompileJob.dependencies =
      some [CompileJob.mk "headers xl6/include" "" []
        (.headers "thumbv6m-unknown-unknown-eabi" "ot6/include")] ∧
    isArchive jobC6.action = true := by
  obtain ⟨h1, h2, h3, h4⟩ := load_graph_shape lC6 cfgC6 envC6 envC6b "tmp6" "ot6"
    jobC6 rfl (by decide) rfl
  have h1' : jobC6.dependencies.length = 3 := h1
  refine ⟨h1', ?_, h4⟩
  cases hd : jobC6.dependencies with
  | nil => rw [hd] at h1'; exact absurd h1' (by decide)
  | cons d rest =>
    have hdm : d ∈ jobC6.dependencies := by
      rw [hd]; exact List.mem_cons_self _ _
    have hdd := h3 d hdm
    have hhead : Option.map CompileJob.dependencies (d :: rest).head? =
        some d.dependencies := rfl
    rw [hhead, hdd]
    rfl

/-- Claim C7: storing a freshly built artifact (whose timestamp is newer
than every unchanged source timestamp) and loading it again with the same
name and sources is a hit returning exactly the stored path. -/
theorem cacheStore_then_cacheLoad_hit
    (env : Env) (tmppath name : String) (srcs : List String) (ts : List Int) (m : Int)
    (hne : srcs ≠ [])
    (hm : env.fs tmppath = .ok m) (h0 : 0 < m)
    (hts : sourceMtimes env.fs srcs = some ts)
    (hlt : ∀ t ∈ ts, t < m)
    (hsep : ∀ s ∈ srcs, s ≠ tmppath ∧ s ≠ pathJoin env.gocache name) :
    cacheStore env tmppath name srcs =
      (.ok (pathJoin env.gocache name),
        renameFile env tmppath (pathJoin env.gocache name) m) ∧
    cacheLoad (renameFile env tmppath (pathJoin env.gocache name) m) name srcs =
      (.hit (pathJoin env.gocache name),
        renameFile env tmppath (pathJoin env.gocache name) m) := by
  have hlen : srcs.length ≠ 0 := by simpa using hne
  have hstore : cacheStore env tmppath name srcs =
      (.ok (pathJoin env.gocache name),
        renameFile env tmppath (pathJoin env.gocache name) m) := by
    simp [cacheStore, hlen, hm]
  refine ⟨hstore, ?_⟩
  have hfs2 : (renameFile env tmppath (pathJoin env.gocache name) m).fs
      (pathJoin (renameFile env tmppath (pathJoin env.gocache name) m).gocache name) =
      .ok m := by
    simp [renameFile]
  have hcongr : sourceMtimes
      (renameFile env tmppath (pathJoin env.gocache name) m).fs srcs = some ts := by
    rw [sourceMtimes_congr env.fs
      (renameFile env tmppath (pathJoin env.gocache name) m).fs srcs ?_, hts]
    intro p hp
    rcases hsep p hp with ⟨h1, h2⟩
    simp [renameFile, h1, h2]
  obtain ⟨r, hr, hrm⟩ :=
    cacheTimestampGo_lt (renameFile env tmppath (pathJoin env.gocache name) m).fs
      m srcs ts 0 h0 hcongr hlt
  simp only [cacheLoad, cacheTimestamp, hfs2, hr]
  simp [hrm, renameFile]

/-- Witness for C7: store at timestamp 10 over a source of timestamp 4,
then load the same name and source set back as a hit. -/
theorem cacheStore_then_cacheLoad_hit_witness :
    cacheStore envC7 "c/nlib.tmp1" "nlib" ["s7"] =
      (.ok "c/nlib", renameFile envC7 "c/nlib.tmp1" "c/nlib" 10) ∧
    cacheLoad (renameFile envC7 "c/nlib.tmp1" "c/nlib" 10) "nlib" ["s7"] =
      (.hit "c/nlib", renameFile envC7 "c/nlib.tmp1" "c/nlib" 10) :=
  cacheStore_then_cacheLoad_hit envC7 "c/nlib.tmp1" "nlib" ["s7"] [4] 10
    (by decide) (by decide) (by decide) (by decide) (by decide) (by decide)

/-- Claim C8: `cacheStore` with an empty source set panics without
renaming anything into the cache (the environment is unchanged), and
under the non-empty precondition the panic branch is unreachable. -/
theorem cacheStore_empty_sources_panics
    (env : Env) (tmppath name : String) (srcs : List String) :
    (srcs = [] → cacheStore env tmppath name srcs = (.panicked, env)) ∧
    (srcs ≠ [] → (cacheStore env tmppath name srcs).1 ≠ .panicked) := by
  constructor
  · intro h
    subst h
    simp [cacheStore]
  · intro h
    have hlen : srcs.length ≠ 0 := by simpa using h
    simp only [cacheStore, hlen, if_false]
    cases henv : env.fs tmppath <;> simp

/-- Witness for C8 at a concrete store. -/
theorem cacheStore_empty_sources_panics_witness :
    cacheStore envC8 "t8" "n8" [] = (.panicked, envC8) ∧
    (cacheStore envC8 "t8" "n8" ["s8"]).1 ≠ .panicked :=
  ⟨(cacheStore_empty_sources_panics envC8 "t8" "n8" []).1 rfl,
   (cacheStore_empty_sources_panics envC8 "t8" "n8" ["s8"]).2 (by decide)⟩

/-- Claim C9: when no entry exists at the computed cache path, `cacheLoad`
reports a plain miss (empty path, nil error) for every source set, leaving
the filesystem untouched. -/
theorem cacheLoad_no_entry_miss (env : Env) (name : String) (srcs : List String)
    (h : env.fs (pathJoin env.gocache name) = .notExist) :
    cacheLoad env name srcs = (.miss, env) := by
  simp [cacheLoad, h]

/-- Witness for C9 at a concrete empty cache. -/
theorem cacheLoad_no_entry_miss_witness :
    cacheLoad envC9 "n9" ["s9"] = (.miss, envC9) :=
  cacheLoad_no_entry_miss envC9 "n9" ["s9"] (by decide)

/-- Claim C10: with an empty source list, `cacheTimestamp` yields the zero
time, so any cache entry with an after-zero-time modification time is
always a fresh hit and is never evicted. -/
theorem cacheLoad_empty_sources_always_hit (env : Env) (name : String) (t : Int)
    (h : env.fs (pathJoin env.gocache name) = .ok t) (h0 : 0 < t) :
    cacheTimestamp env.fs [] = .ok 0 ∧
    cacheLoad env name [] = (.hit (pathJoin env.gocache name), env) := by
  exact ⟨rfl, by simp [cacheLoad, h, cacheTimestamp, cacheTimestampGo, h0]⟩

/-- Witness for C10 at a concrete entry of timestamp 9. -/
theorem cacheLoad_empty_sources_always_hit_witness :
    cacheTimestamp envC10.fs [] = .ok 0 ∧
    cacheLoad envC10 "old" [] = (.hit "c/old", envC10) :=
  cacheLoad_empty_sources_always_hit envC10 "old" 9 (by decide) (by decide)

end TinyGoBuilder
